import Mathlib

/-!
Verification of the tile-indexed geocoding orchestration engine (`GeoSDKH3`,
`src/geocoder-h3.ts`) against its specification.

Strings are embedded as `List Char` (`Str`) so that every operation is
computable by the kernel.  The external collaborators (DuckDB query backend,
H3 spatial grid, remote file fetches) are modelled as oracles (`Backend`,
`InitOracle`): the orchestration layer under verification decides which
partitions to read and which predicates/orderings to request, and the oracle
supplies row data.  A multi-file `read_parquet([...])` call is one combined
request whose rows are concatenated in file-list order and which fails as a
whole if any listed file fails.  `ORDER BY` (and JavaScript's stable
`Array.prototype.sort`) are embedded as the stable `List.insertionSort`.
-/

deriving instance DecidableEq for Except

/-- Strings of the TypeScript source, embedded as character lists. -/
abbrev Str := List Char

/-- The apostrophe character used by the SQL-quoting helpers. -/
def quoteChar : Char := Char.ofNat 39

/-- `%` wildcard of SQL `LIKE`. -/
def percentChar : Char := Char.ofNat 37

/-- `_` wildcard of SQL `LIKE`. -/
def underscoreChar : Char := Char.ofNat 95

/-- `String.prototype.trim`: strip leading and trailing whitespace. -/
def trimStr (s : Str) : Str :=
  ((s.dropWhile Char.isWhitespace).reverse.dropWhile Char.isWhitespace).reverse

/-- Split at every character satisfying `p` (as `String.split` /
JavaScript `split` do; empty pieces between adjacent delimiters are kept
here and removed by the length-two filter downstream). -/
def splitStrAux (p : Char → Bool) : Str → Str → List Str
  | [], acc => [acc.reverse]
  | c :: cs, acc =>
    if p c then acc.reverse :: splitStrAux p cs []
    else splitStrAux p cs (c :: acc)

/-- Split a string on a character predicate. -/
def splitStr (p : Char → Bool) (s : Str) : List Str := splitStrAux p s []

/-- `.replace(/'/g, "''")`: double every single quote (SQL escaping). -/
def escapeQuotes : Str → Str
  | [] => []
  | c :: cs =>
    if c = quoteChar then c :: c :: escapeQuotes cs
    else c :: escapeQuotes cs

/-- Inverse of SQL quote escaping: collapse doubled quotes, as the SQL
parser does when it reads a quoted literal back into a string value. -/
def unescapeQuotes : Str → Str
  | [] => []
  | [c] => [c]
  | c :: c2 :: cs =>
    if c = quoteChar ∧ c2 = quoteChar then c :: unescapeQuotes cs
    else c :: unescapeQuotes (c2 :: cs)

/-- `UPPER` / `toUpperCase` restricted to ASCII (all claims about case
folding concern Latin script only). -/
def upperStr (s : Str) : Str := s.map Char.toUpper

/-- `toWesternDigits`, character by character: Arabic-Indic digits U+0660-U+0669
and Persian digits U+06F0-U+06F9 are mapped to ASCII digits via the same
code-point offset arithmetic the source uses. -/
def toWesternDigitChar (c : Char) : Char :=
  if 1632 ≤ c.toNat ∧ c.toNat ≤ 1641 then Char.ofNat (c.toNat - 1632 + 48)
  else if 1776 ≤ c.toNat ∧ c.toNat ≤ 1785 then Char.ofNat (c.toNat - 1776 + 48)
  else c

/-- `toWesternDigits` of `geocoder-h3.ts`. -/
def toWesternDigits (s : Str) : Str := s.map toWesternDigitChar

/-- The script-detection regex `/[؀-ۿ]/.test(...)`. -/
def isArabicText (s : Str) : Bool :=
  s.any (fun c => decide (1536 ≤ c.toNat) && decide (c.toNat ≤ 1791))

/-- Does `f` hold of some suffix of the string (the string itself included)? -/
def suffixAny (f : Str → Bool) : Str → Bool
  | [] => f []
  | c :: s2 => f (c :: s2) || suffixAny f s2

/-- SQL `LIKE` pattern matching: `%` matches any character sequence,
`_` matches exactly one character, anything else matches itself. -/
def likeMatch : Str → Str → Bool
  | [], s => s.isEmpty
  | p :: ps, s =>
    if p = percentChar then suffixAny (fun s3 => likeMatch ps s3) s
    else
      match s with
      | [] => false
      | c :: s2 => (decide (p = underscoreChar) || decide (p = c)) && likeMatch ps s2

/-- `addr LIKE '%' || t || '%'` for a wildcard-capable fragment `t`. -/
def likeContains (t addr : Str) : Bool :=
  likeMatch (percentChar :: (t ++ [percentChar])) addr

/-- Bytewise `<` on VARCHAR values (codepoint order coincides with UTF-8
byte order). -/
def charListLt : Str → Str → Bool
  | [], [] => false
  | [], _ :: _ => true
  | _ :: _, [] => false
  | a :: as, b :: bs => if a = b then charListLt as bs else decide (a < b)

/-- `≤` on VARCHAR values, used to embed `ORDER BY` on string columns. -/
def charListLe (a b : Str) : Bool := !(charListLt b a)

/-- `TileInfo` of `geocoder-h3.ts`: one row of the tile index. -/
structure TileInfo where
  h3_tile : Str
  addr_count : Nat
  min_lon : Rat
  max_lon : Rat
  min_lat : Rat
  max_lat : Rat
  file_size_kb : Nat
  region_ar : Option Str := none
  region_en : Option Str := none
deriving DecidableEq, Repr

/-- `PostcodeInfo` of `geocoder-h3.ts`: one entry of the postcode index. -/
structure PostcodeInfo where
  postcode : Str
  tiles : List Str
  addr_count : Nat
  region_ar : Option Str := none
  region_en : Option Str := none
deriving DecidableEq, Repr

/-- One address record as stored in a tile parquet file.  The two full
address columns are nullable (the source filters them with `IS NOT NULL`);
the remaining columns are plain values. -/
structure AddressRow where
  addr_id : Nat
  longitude : Rat
  latitude : Rat
  number : Str
  street : Str
  postcode : Str
  district_ar : Str
  district_en : Str
  city : Str
  gov_ar : Str
  gov_en : Str
  region_ar : Str
  region_en : Str
  full_address_ar : Option Str
  full_address_en : Option Str
  h3_index : Str
deriving DecidableEq, Repr

/-- `GeocodingResult` of `geocoder-h3.ts`.  An optional field is `some` when
the corresponding mapping populates it. -/
structure GeocodingResult where
  addr_id : Nat
  longitude : Rat
  latitude : Rat
  number : Option Str := none
  street : Option Str := none
  postcode : Option Str := none
  district_ar : Option Str := none
  district_en : Option Str := none
  city : Option Str := none
  gov_ar : Option Str := none
  gov_en : Option Str := none
  region_ar : Option Str := none
  region_en : Option Str := none
  full_address_ar : Option Str := none
  full_address_en : Option Str := none
  h3_index : Option Str := none
  distance_m : Option Rat := none
  similarity : Option Rat := none
deriving DecidableEq, Repr

/-- The four detail levels of `reverseGeocode`. -/
inductive DetailLevel
  | minimal
  | postcode
  | region
  | full
deriving DecidableEq, Repr

/-- The mutable state of one `GeoSDKH3` instance (catalogs are loaded once
at initialization; `loadedTiles` is instrumentation only). -/
structure SDKState where
  dataUrl : Str
  initialized : Bool
  ftsAvailable : Bool
  tileIndex : List TileInfo
  postcodeIndex : List (Str × PostcodeInfo)
  loadedTiles : List Str
deriving DecidableEq, Repr

/-- The external collaborators of a query: the H3 grid, the polygon
containment check, per-file parquet fetches (keyed by full URL), and the
SQL functions the backend evaluates (haversine distance, `JACCARD`,
BM25 full-text search).  `cosDeg` stands for the host's
`Math.cos(lat * π / 180)`. -/
structure Backend where
  saPolygonContains : Rat → Rat → Bool
  h3TileForPoint : Rat → Rat → Option Str
  neighborTiles : Str → List Str
  fetchParquet : Str → Except Str (List AddressRow)
  haversine : Rat → Rat → Rat → Rat → Rat
  cosDeg : Rat → Rat
  jaccard : Str → Str → Rat
  ftsSearch : List Str → Str → Str → Nat → Except Str (List (AddressRow × Rat))

/-- URL of one tile file: `{base}/tiles/{tile}.parquet`. -/
def tileUrl (baseUrl tile : Str) : Str :=
  baseUrl ++ "/tiles/".toList ++ tile ++ ".parquet".toList

/-- `read_parquet([...])` over a list of file URLs: rows are concatenated
in list order; the whole read fails if any file fails. -/
def readParquetList (be : Backend) : List Str → Except Str (List AddressRow)
  | [] => .ok []
  | u :: rest => do
    let rows ← be.fetchParquet u
    let more ← readParquetList be rest
    pure (rows ++ more)

/-- `isInSaudiArabia`: cheap axis-aligned bounding box pre-check, then the
polygon containment query. -/
def isInSaudiArabia (be : Backend) (lat lon : Rat) : Bool :=
  if lon < 34.5 ∨ lon > 55.7 ∨ lat < 16.3 ∨ lat > 32.2 then false
  else be.saPolygonContains lat lon

/-- `getColumnsForDetailLevel`: the column projection sent to the backend. -/
def getColumnsForDetailLevel : DetailLevel → List Str
  | .minimal => ["addr_id".toList, "longitude".toList, "latitude".toList]
  | .postcode =>
    ["addr_id".toList, "longitude".toList, "latitude".toList,
     "postcode".toList, "region_ar".toList, "region_en".toList]
  | .region =>
    ["addr_id".toList, "longitude".toList, "latitude".toList,
     "postcode".toList, "district_ar".toList, "district_en".toList,
     "city".toList, "region_ar".toList, "region_en".toList]
  | .full => ["*".toList]

/-- One row of `mapResultsToGeocodingResult`: shape a fetched row (plus its
computed `distance_m`) according to the detail level. -/
def mapRowToResult (detailLevel : DetailLevel) (row : AddressRow) (dist : Rat) :
    GeocodingResult :=
  match detailLevel with
  | .minimal =>
    { addr_id := row.addr_id, longitude := row.longitude, latitude := row.latitude,
      distance_m := some dist }
  | .postcode =>
    { addr_id := row.addr_id, longitude := row.longitude, latitude := row.latitude,
      postcode := some row.postcode, region_ar := some row.region_ar,
      region_en := some row.region_en, distance_m := some dist }
  | .region =>
    { addr_id := row.addr_id, longitude := row.longitude, latitude := row.latitude,
      postcode := some row.postcode, district_ar := some row.district_ar,
      district_en := some row.district_en, city := some row.city,
      region_ar := some row.region_ar, region_en := some row.region_en,
      distance_m := some dist }
  | .full =>
    { addr_id := row.addr_id, longitude := row.longitude, latitude := row.latitude,
      number := some row.number, street := some row.street,
      postcode := some row.postcode, district_ar := some row.district_ar,
      district_en := some row.district_en, city := some row.city,
      gov_ar := some row.gov_ar, gov_en := some row.gov_en,
      region_ar := some row.region_ar, region_en := some row.region_en,
      full_address_ar := row.full_address_ar, full_address_en := row.full_address_en,
      h3_index := some row.h3_index, distance_m := some dist }

/-- Names of the fields a `GeocodingResult` can carry. -/
inductive ResultField
  | addr_id
  | longitude
  | latitude
  | number
  | street
  | postcode
  | district_ar
  | district_en
  | city
  | gov_ar
  | gov_en
  | region_ar
  | region_en
  | full_address_ar
  | full_address_en
  | h3_index
  | distance_m
  | similarity
deriving DecidableEq, Repr

/-- The set of fields a returned record carries: the three mandatory fields
plus every optional field that is populated. -/
def resultFields (r : GeocodingResult) : List ResultField :=
  [ResultField.addr_id, ResultField.longitude, ResultField.latitude] ++
  (if r.number.isSome then [ResultField.number] else []) ++
  (if r.street.isSome then [ResultField.street] else []) ++
  (if r.postcode.isSome then [ResultField.postcode] else []) ++
  (if r.district_ar.isSome then [ResultField.district_ar] else []) ++
  (if r.district_en.isSome then [ResultField.district_en] else []) ++
  (if r.city.isSome then [ResultField.city] else []) ++
  (if r.gov_ar.isSome then [ResultField.gov_ar] else []) ++
  (if r.gov_en.isSome then [ResultField.gov_en] else []) ++
  (if r.region_ar.isSome then [ResultField.region_ar] else []) ++
  (if r.region_en.isSome then [ResultField.region_en] else []) ++
  (if r.full_address_ar.isSome then [ResultField.full_address_ar] else []) ++
  (if r.full_address_en.isSome then [ResultField.full_address_en] else []) ++
  (if r.h3_index.isSome then [ResultField.h3_index] else []) ++
  (if r.distance_m.isSome then [ResultField.distance_m] else []) ++
  (if r.similarity.isSome then [ResultField.similarity] else [])

/-- Options of `reverseGeocode` with the source's defaults. -/
structure ReverseOptions where
  limit : Nat := 10
  radiusMeters : Rat := 1000
  detailLevel : DetailLevel := .full
  includeNeighbors : Bool := false
deriving DecidableEq, Repr

/-- `reverseGeocode`: country gate, H3 cell resolution, optional neighbor
ring, bounding-box predicate with a computed haversine distance column,
`ORDER BY distance_m LIMIT limit`.  Returns the operation result together
with the list of partition URLs the combined backend request reads (empty
when the call short-circuits before any partition fetch). -/
def reverseGeocode (be : Backend) (s : SDKState) (lat lon : Rat)
    (options : ReverseOptions) : Except Str (List GeocodingResult) × List Str :=
  if isInSaudiArabia be lat lon then
    match be.h3TileForPoint lat lon with
    | none => (.ok [], [])
    | some h3Tile =>
      match s.tileIndex.find? (fun t => t.h3_tile == h3Tile) with
      | none => (.ok [], [])
      | some _ =>
        let tilesToQuery :=
          if options.includeNeighbors then
            h3Tile :: (be.neighborTiles h3Tile).filter
              (fun n => s.tileIndex.any (fun t => t.h3_tile == n))
          else [h3Tile]
        let lonDegPerKm : Rat := 1 / (111.32 * be.cosDeg lat)
        let latDegPerKm : Rat := 1 / 110.574
        let radiusKm := options.radiusMeters / 1000
        let lonDelta := radiusKm * lonDegPerKm
        let latDelta := radiusKm * latDegPerKm
        let urls := tilesToQuery.map (tileUrl s.dataUrl)
        match readParquetList be urls with
        | .error e => (.error e, urls)
        | .ok rows =>
          let filtered := rows.filter (fun r =>
            decide (lon - lonDelta ≤ r.longitude) && decide (r.longitude ≤ lon + lonDelta) &&
            decide (lat - latDelta ≤ r.latitude) && decide (r.latitude ≤ lat + latDelta))
          let withDist := filtered.map (fun r => (r, be.haversine lat lon r.latitude r.longitude))
          let sorted := withDist.insertionSort (fun a b => a.2 ≤ b.2)
          (.ok ((sorted.take options.limit).map
            (fun p => mapRowToResult options.detailLevel p.1 p.2)), urls)
  else (.ok [], [])

/-- Bbox candidate filter of `geocode`/`searchByNumber`: axis-aligned
rectangle intersection between each tile's bbox and the query bbox. -/
def bboxFilterTiles (tileIndex : List TileInfo) (minLat minLon maxLat maxLon : Rat) :
    List TileInfo :=
  tileIndex.filter (fun t =>
    decide (t.min_lon ≤ maxLon) && decide (t.max_lon ≥ minLon) &&
    decide (t.min_lat ≤ maxLat) && decide (t.max_lat ≥ minLat))

/-- Region candidate filter: exact match on either language label. -/
def regionFilterTiles (tileIndex : List TileInfo) (region : Str) : List TileInfo :=
  tileIndex.filter (fun t => t.region_ar == some region || t.region_en == some region)

/-- `MAX_TILES` of `geocode`. -/
def MAX_TILES : Nat := 50

/-- The candidate-partition cap of `geocode`: beyond `MAX_TILES` candidates,
keep the `MAX_TILES` smallest files when a bbox/region filter was applied,
else stride-sample every `ceil(len / MAX_TILES)`-th element. -/
def capTilesForGeocode (hasFilter : Bool) (tiles : List TileInfo) : List TileInfo :=
  if tiles.length > MAX_TILES then
    if hasFilter then
      (tiles.insertionSort (fun a b => a.file_size_kb ≤ b.file_size_kb)).take MAX_TILES
    else
      let step := (tiles.length + MAX_TILES - 1) / MAX_TILES
      ((tiles.enum.filter (fun p => p.1 % step == 0)).map Prod.snd).take MAX_TILES
  else tiles

/-- Token delimiters of the fallback text search: whitespace, comma,
Arabic comma (the regex `[\s,،]+`). -/
def isTokenDelim (c : Char) : Bool :=
  c.isWhitespace || decide (c = ',') || decide (c = '،')

/-- Search terms of the fallback strategy: split the cleaned query on
delimiters, keep tokens of length at least 2, keep at most 5. -/
def searchTermsOf (cleanAddress : Str) : List Str :=
  ((splitStr isTokenDelim cleanAddress).filter (fun t => 2 ≤ t.length)).take 5

/-- The address column chosen by script detection. -/
def addressFieldOf (isArabic : Bool) (r : AddressRow) : Option Str :=
  if isArabic then r.full_address_ar else r.full_address_en

/-- One `LIKE` disjunct of the fallback gate: the SQL literal `'%term%'`
is unescaped by the SQL parser; for a Latin query both sides are
upper-cased. -/
def termMatches (isArabic : Bool) (term addr : Str) : Bool :=
  if isArabic then likeContains (unescapeQuotes term) addr
  else likeContains (upperStr (unescapeQuotes term)) (upperStr addr)

/-- The `CONTAINS` relevance gate of the fallback strategy: at least one
search term must `LIKE`-match the address field; with no surviving terms the
condition is the SQL constant `TRUE`. -/
def fallbackGate (isArabic : Bool) (terms : List Str) (addr : Str) : Bool :=
  if terms.isEmpty then true
  else terms.any (fun t => termMatches isArabic t addr)

/-- Result mapping shared by both `geocode` strategies (the `geocode`
`SELECT` does not project `h3_index` or a distance). -/
def geocodeRowToResult (row : AddressRow) (sim : Rat) : GeocodingResult :=
  { addr_id := row.addr_id, longitude := row.longitude, latitude := row.latitude,
    number := some row.number, street := some row.street,
    postcode := some row.postcode, district_ar := some row.district_ar,
    district_en := some row.district_en, city := some row.city,
    gov_ar := some row.gov_ar, gov_en := some row.gov_en,
    region_ar := some row.region_ar, region_en := some row.region_en,
    full_address_ar := row.full_address_ar, full_address_en := row.full_address_en,
    similarity := some sim }

/-- Options of `geocode`: `bbox` is `[minLat, minLon, maxLat, maxLon]`. -/
structure GeocodeOptions where
  limit : Nat := 10
  bbox : Option (Rat × Rat × Rat × Rat) := none
  region : Option Str := none
deriving DecidableEq, Repr

/-- The `JACCARD`-based fallback text search over the capped candidate set:
filter rows whose address field is non-null and passes the gate, rank by
the backend's `JACCARD` similarity (upper-cased for Latin queries),
descending, capped at `limit`. -/
def geocodeFallback (be : Backend) (urls : List Str) (cleanAddress : Str)
    (isArabic : Bool) (limit : Nat) : Except Str (List GeocodingResult) :=
  let terms := searchTermsOf cleanAddress
  match readParquetList be urls with
  | .error e => .error e
  | .ok rows =>
    let passing := rows.filter (fun r =>
      (addressFieldOf isArabic r).isSome &&
      fallbackGate isArabic terms ((addressFieldOf isArabic r).getD []))
    let queryText := unescapeQuotes cleanAddress
    let scored := passing.map (fun r =>
      (r, if isArabic then be.jaccard queryText ((addressFieldOf isArabic r).getD [])
          else be.jaccard (upperStr queryText) (upperStr ((addressFieldOf isArabic r).getD []))))
    let sorted := scored.insertionSort (fun a b => b.2 ≤ a.2)
    .ok ((sorted.take limit).map (fun p => geocodeRowToResult p.1 p.2))

/-- `geocode`: candidate partitions from bbox filter, else region filter,
else the whole catalog; zero candidates short-circuit to `[]`; cap at
`MAX_TILES`; BM25 ranked search when the FTS capability is available (with
fall-through to the fallback strategy if that attempt fails), else the
fallback strategy.  Also returns the partition URLs of the combined
request. -/
def geocode (be : Backend) (s : SDKState) (address : Str) (options : GeocodeOptions) :
    Except Str (List GeocodingResult) × List Str :=
  let normalizedAddress := toWesternDigits (trimStr address)
  let cleanAddress := escapeQuotes normalizedAddress
  let tilesToQuery :=
    match options.bbox with
    | some (minLat, minLon, maxLat, maxLon) =>
      bboxFilterTiles s.tileIndex minLat minLon maxLat maxLon
    | none =>
      match options.region with
      | some r => regionFilterTiles s.tileIndex r
      | none => s.tileIndex
  if tilesToQuery.isEmpty then (.ok [], [])
  else
    let hasFilter := options.bbox.isSome || options.region.isSome
    let capped := capTilesForGeocode hasFilter tilesToQuery
    let urls := capped.map (fun t => tileUrl s.dataUrl t.h3_tile)
    let isArabic := isArabicText cleanAddress
    let addressField :=
      if isArabic then "full_address_ar".toList else "full_address_en".toList
    if s.ftsAvailable then
      match be.ftsSearch urls addressField cleanAddress options.limit with
      | .ok scored => (.ok (scored.map (fun p => geocodeRowToResult p.1 p.2)), urls)
      | .error _ =>
        (geocodeFallback be urls cleanAddress isArabic options.limit, urls)
    else (geocodeFallback be urls cleanAddress isArabic options.limit, urls)

/-- Options of `searchByPostcode`. -/
structure PostcodeOptions where
  limit : Nat := 50
  number : Option Str := none
deriving DecidableEq, Repr

/-- Result mapping of `searchByPostcode`/`searchByNumber` (no `h3_index`,
no distance, no similarity in their `SELECT`). -/
def searchRowToResult (row : AddressRow) : GeocodingResult :=
  { addr_id := row.addr_id, longitude := row.longitude, latitude := row.latitude,
    number := some row.number, street := some row.street,
    postcode := some row.postcode, district_ar := some row.district_ar,
    district_en := some row.district_en, city := some row.city,
    gov_ar := some row.gov_ar, gov_en := some row.gov_en,
    region_ar := some row.region_ar, region_en := some row.region_en,
    full_address_ar := row.full_address_ar, full_address_en := row.full_address_en }

/-- The JavaScript truthiness chain on the optional house-number filter:
`options.number ? toWesternDigits(options.number.trim()) : undefined`, and
the filter clause is added only when that value is itself truthy. -/
def effectiveNumberFilter (number : Option Str) : Option Str :=
  match number with
  | none => none
  | some n =>
    if n.isEmpty then none
    else
      let m := toWesternDigits (trimStr n)
      if m.isEmpty then none else some m

/-- `searchByPostcode`: digits are normalized for the index lookup (an
unknown normalized postcode short-circuits to `[]`), only the entry's tiles
are read, and the backend predicate compares the `postcode` column against
the raw input string (the house-number clause, by contrast, compares
against the normalized number).  `ORDER BY number LIMIT limit`. -/
def searchByPostcode (be : Backend) (s : SDKState) (postcode : Str)
    (options : PostcodeOptions) : Except Str (List GeocodingResult) × List Str :=
  match s.postcodeIndex.lookup (toWesternDigits (trimStr postcode)) with
  | none => (.ok [], [])
  | some postcodeInfo =>
    let urls := postcodeInfo.tiles.map (tileUrl s.dataUrl)
    match readParquetList be urls with
    | .error e => (.error e, urls)
    | .ok rows =>
      let filtered := rows.filter (fun r =>
        r.postcode == postcode &&
        (match effectiveNumberFilter options.number with
         | some m => r.number == m
         | none => true))
      let sorted := filtered.insertionSort (fun a b => charListLe a.number b.number = true)
      (.ok ((sorted.take options.limit).map searchRowToResult), urls)

/-- `DEFAULT_DATA_URL` of `types.ts`. -/
def DEFAULT_DATA_URL : Str :=
  "https://data.source.coop/tabaqat/geocoding-cng/v0.1.0".toList

/-- File name of the tile index. -/
def tileIndexFile : Str := "tile_index.parquet".toList

/-- File name of the postcode index. -/
def postcodeIndexFile : Str := "postcode_index.parquet".toList

/-- File name of the world-country boundaries. -/
def worldCountriesFile : Str := "world_countries_simple.parquet".toList

/-- File name of the region boundaries. -/
def saRegionsFile : Str := "sa_regions_simple.parquet".toList

/-- File name of the district boundaries. -/
def saDistrictsFile : Str := "sa_districts_simple.parquet".toList

/-- The remote fetches of `initialize`, keyed by base URL and file name,
plus the outcome of the FTS extension probe. -/
structure InitOracle where
  fetchTileIndex : Str → Except Str (List TileInfo)
  fetchPostcodeIndex : Str → Except Str (List PostcodeInfo)
  fetchBoundary : Str → Str → Except Str Unit
  ftsLoadOk : Bool

/-- The tail of `initialize` once a tile index has loaded from
`actualBaseUrl`: load the postcode index (failure is caught and leaves the
previous, initially empty, index), then the three boundary datasets
(failure aborts).  The second component is the fetch trace
`(base URL, file)` in request order. -/
def finishInit (f : InitOracle) (s : SDKState) (idx : List TileInfo)
    (actualBaseUrl : Str) (tileAttempts : List (Str × Str)) :
    Except Str SDKState × List (Str × Str) :=
  let postcodeIndex :=
    match f.fetchPostcodeIndex actualBaseUrl with
    | .ok entries => entries.map (fun p => (p.postcode, p))
    | .error _ => s.postcodeIndex
  let trace1 := tileAttempts ++ [(actualBaseUrl, postcodeIndexFile)]
  match f.fetchBoundary actualBaseUrl worldCountriesFile with
  | .error e => (.error e, trace1 ++ [(actualBaseUrl, worldCountriesFile)])
  | .ok _ =>
    match f.fetchBoundary actualBaseUrl saRegionsFile with
    | .error e =>
      (.error e, trace1 ++ [(actualBaseUrl, worldCountriesFile), (actualBaseUrl, saRegionsFile)])
    | .ok _ =>
      match f.fetchBoundary actualBaseUrl saDistrictsFile with
      | .error e =>
        (.error e, trace1 ++ [(actualBaseUrl, worldCountriesFile),
          (actualBaseUrl, saRegionsFile), (actualBaseUrl, saDistrictsFile)])
      | .ok _ =>
        (.ok { s with
                dataUrl := actualBaseUrl, initialized := true,
                ftsAvailable := f.ftsLoadOk, tileIndex := idx,
                postcodeIndex := postcodeIndex },
         trace1 ++ [(actualBaseUrl, worldCountriesFile),
           (actualBaseUrl, saRegionsFile), (actualBaseUrl, saDistrictsFile)])

/-- `initialize`: a no-op on an already-initialized instance; otherwise load
the tile index from the configured base URL, retrying once against
`DEFAULT_DATA_URL` (and switching the effective base URL to it) when the
configured URL is custom and fails; when both fail, or the configured URL
already is the default and fails, raise a hard error. -/
def initializeSdk (f : InitOracle) (s : SDKState) :
    Except Str SDKState × List (Str × Str) :=
  if s.initialized then (.ok s, [])
  else
    match f.fetchTileIndex s.dataUrl with
    | .ok idx => finishInit f s idx s.dataUrl [(s.dataUrl, tileIndexFile)]
    | .error e =>
      if s.dataUrl ≠ DEFAULT_DATA_URL then
        match f.fetchTileIndex DEFAULT_DATA_URL with
        | .ok idx =>
          finishInit f s idx DEFAULT_DATA_URL
            [(s.dataUrl, tileIndexFile), (DEFAULT_DATA_URL, tileIndexFile)]
        | .error _ =>
          (.error ("Failed to load tile index from both custom and default URLs: ".toList ++ e),
           [(s.dataUrl, tileIndexFile), (DEFAULT_DATA_URL, tileIndexFile)])
      else (.error e, [(s.dataUrl, tileIndexFile)])

/-- A token with no SQL `LIKE` wildcard characters. -/
def wildcardFree (t : Str) : Prop :=
  ∀ c ∈ t, c ≠ percentChar ∧ c ≠ underscoreChar

/-- What the candidate-partition cap guarantees once the candidate list
exceeds `MAX_TILES`: the filtered branch keeps exactly `MAX_TILES`
candidates and they are (as a multiset) the smallest-file ones; the
unfiltered branch is exactly the stride sample at indices that are
multiples of `ceil(len / MAX_TILES)`; and no `geocode` call ever queries
more than `MAX_TILES` partitions. -/
def capSpec (tiles : List TileInfo) : Prop :=
  (capTilesForGeocode true tiles).length = MAX_TILES ∧
  (∃ rest, ((capTilesForGeocode true tiles) ++ rest).Perm tiles ∧
    ∀ a ∈ capTilesForGeocode true tiles, ∀ b ∈ rest, a.file_size_kb ≤ b.file_size_kb) ∧
  capTilesForGeocode false tiles =
    (tiles.enum.filter
      (fun p => p.1 % ((tiles.length + MAX_TILES - 1) / MAX_TILES) == 0)).map Prod.snd ∧
  (capTilesForGeocode false tiles).length ≤ MAX_TILES ∧
  (∀ be s address o, ((geocode be s address o).2).length ≤ MAX_TILES)

/-- Failure semantics of an operation issuing one combined multi-partition
request: it can succeed only when every partition fetch succeeds, and any
failing partition fetch fails the whole operation. -/
def mergeFetchSpec (be : Backend) (out : Except Str (List GeocodingResult) × List Str) : Prop :=
  ((∀ u ∈ out.2, ∃ rows, be.fetchParquet u = .ok rows) → ∃ l, out.1 = .ok l) ∧
  (∀ u ∈ out.2, ∀ e, be.fetchParquet u = .error e → ∃ e2, out.1 = .error e2)

/-- What the initialization fallback guarantees when the configured base
URL is custom and fails to serve the tile index: the first two fetches are
the tile index from the custom then the default URL (one retry, no more),
every later fetch in that call uses the default URL, a successful
initialization ends with the default URL as the effective base URL, and if
the default also fails the hard error names both failures. -/
def initFallbackSpec (f : InitOracle) (s : SDKState) (e : Str) : Prop :=
  ((initializeSdk f s).2.take 2 =
    [(s.dataUrl, tileIndexFile), (DEFAULT_DATA_URL, tileIndexFile)]) ∧
  (∀ p ∈ (initializeSdk f s).2.drop 2, p.1 = DEFAULT_DATA_URL) ∧
  (∀ s2, (initializeSdk f s).1 = .ok s2 → s2.dataUrl = DEFAULT_DATA_URL) ∧
  (∀ e2, f.fetchTileIndex DEFAULT_DATA_URL = .error e2 →
    (initializeSdk f s).1 =
      .error ("Failed to load tile index from both custom and default URLs: ".toList ++ e))

/-- What the fallback text-search strategy guarantees about an `.ok` result
list for a query: surviving tokens have length at least 2 and number at
most 5; with at least one surviving token, every returned record's
(script-selected) address field `LIKE`-matches some token; with no
surviving tokens the gate is the constant `TRUE`; and `LIKE` containment
of a wildcard-free fragment is exactly substring containment. -/
def fallbackResultSpec (address : Str) (l : List GeocodingResult) : Prop :=
  let clean := escapeQuotes (toWesternDigits (trimStr address))
  let terms := searchTermsOf clean
  let isAr := isArabicText clean
  (∀ t ∈ terms, 2 ≤ t.length) ∧
  terms.length ≤ 5 ∧
  (terms ≠ [] → ∀ r ∈ l, ∃ t ∈ terms, ∃ addr,
    (if isAr then r.full_address_ar else r.full_address_en) = some addr ∧
    termMatches isAr t addr = true) ∧
  (∀ b a, fallbackGate b [] a = true) ∧
  (∀ t a, wildcardFree t → (likeContains t a = true ↔ t <:+: a))

/-- Concrete sample address row (fixture for witnesses/counterexamples). -/
def sampleRow (i : Nat) (pc num : Str) : AddressRow :=
  { addr_id := i, longitude := 46, latitude := 24, number := num,
    street := "st".toList, postcode := pc, district_ar := "dar".toList,
    district_en := "den".toList, city := "c".toList, gov_ar := "gar".toList,
    gov_en := "gen".toList, region_ar := "rar".toList, region_en := "ren".toList,
    full_address_ar := some "شارع الملك".toList,
    full_address_en := some "Xab street".toList, h3_index := "h".toList }

/-- Concrete sample tile (fixture). -/
def sampleTile (name : Str) (sz : Nat) : TileInfo :=
  { h3_tile := name, addr_count := 1, min_lon := 30, max_lon := 50,
    min_lat := 10, max_lat := 35, file_size_kb := sz }

/-- The three rows stored in sample tile `t1`. -/
def sampleRows : List AddressRow :=
  [sampleRow 2 "13847".toList "7".toList,
   sampleRow 1 "13847".toList "4".toList,
   sampleRow 3 "11111".toList "4037".toList]

/-- Concrete sample backend (fixture): tile `t1` serves `sampleRows`, every
other fetch fails; every point maps to H3 cell `t1` with neighbor `t2`. -/
def sampleBackend : Backend :=
  { saPolygonContains := fun _ _ => true,
    h3TileForPoint := fun _ _ => some "t1".toList,
    neighborTiles := fun _ => ["t2".toList],
    fetchParquet := fun u =>
      if u = tileUrl "d".toList "t1".toList then .ok sampleRows
      else .error "boom".toList,
    haversine := fun _ _ _ _ => 5,
    cosDeg := fun _ => 1,
    jaccard := fun _ _ => 0,
    ftsSearch := fun _ _ _ _ => .error "no".toList }

/-- Concrete sample SDK state (fixture): tiles `t1`, `t2`; postcodes
`13847` and `11111` both indexed to tile `t1`. -/
def sampleState : SDKState :=
  { dataUrl := "d".toList, initialized := true, ftsAvailable := false,
    tileIndex := [sampleTile "t1".toList 10, sampleTile "t2".toList 20],
    postcodeIndex :=
      [("13847".toList, { postcode := "13847".toList, tiles := ["t1".toList], addr_count := 2 }),
       ("11111".toList, { postcode := "11111".toList, tiles := ["t1".toList], addr_count := 1 })],
    loadedTiles := [] }

/-- Sample state whose index holds only tile `t1` (fixture). -/
def sampleState1 : SDKState :=
  { sampleState with tileIndex := [sampleTile "t1".toList 10] }

/-- 51 sample tiles with distinct file sizes (fixture for the cap claim). -/
def sampleTiles51 : List TileInfo :=
  (List.range 51).map (fun i => sampleTile [Char.ofNat (65 + i)] i)

/-- Concrete initialization oracle (fixture): only the default base URL
serves the tile index; everything else succeeds. -/
def sampleInitOracle : InitOracle :=
  { fetchTileIndex := fun base =>
      if base = DEFAULT_DATA_URL then .ok [sampleTile "t1".toList 10]
      else .error "404".toList,
    fetchPostcodeIndex := fun _ => .ok [],
    fetchBoundary := fun _ _ => .ok (),
    ftsLoadOk := true }

/-- An uninitialized sample state configured with a custom base URL. -/
def sampleFreshState : SDKState :=
  { dataUrl := "d".toList, initialized := false, ftsAvailable := false,
    tileIndex := [], postcodeIndex := [], loadedTiles := [] }

theorem readParquetList_ok_forall {be : Backend} :
    ∀ {urls : List Str} {rows : List AddressRow},
      readParquetList be urls = .ok rows → ∀ u ∈ urls, ∃ rs, be.fetchParquet u = .ok rs := by
  intro urls
  induction urls with
  | nil => simp
  | cons u rest ih =>
    intro rows h v hv
    unfold readParquetList at h
    cases hf : be.fetchParquet u with
    | error e => rw [hf] at h; simp [Bind.bind, Except.bind] at h
    | ok rs =>
      rw [hf] at h
      cases hr : readParquetList be rest with
      | error e =>
        rw [hr] at h
        simp [Bind.bind, Except.bind, Functor.map, Except.map] at h
      | ok more =>
        rcases List.mem_cons.mp hv with rfl | hv2
        · exact ⟨rs, hf⟩
        · exact ih hr v hv2

theorem readParquetList_ok_of_forall {be : Backend} :
    ∀ {urls : List Str}, (∀ u ∈ urls, ∃ rs, be.fetchParquet u = .ok rs) →
      ∃ rows, readParquetList be urls = .ok rows := by
  intro urls
  induction urls with
  | nil => intro _; exact ⟨[], rfl⟩
  | cons u rest ih =>
    intro h
    obtain ⟨rs, hu⟩ := h u (List.mem_cons_self u rest)
    obtain ⟨rows, hrest⟩ := ih (fun v hv => h v (List.mem_cons_of_mem u hv))
    exact ⟨rs ++ rows, by unfold readParquetList; rw [hu, hrest]; rfl⟩

theorem suffixAny_eq_true {f : Str → Bool} :
    ∀ {s : Str}, suffixAny f s = true ↔ ∃ s2, s2 <:+ s ∧ f s2 = true := by
  intro s
  induction s with
  | nil =>
    simp only [suffixAny]
    constructor
    · intro h; exact ⟨[], List.suffix_rfl, h⟩
    · rintro ⟨s2, hsuf, hf⟩
      rw [List.suffix_nil.mp hsuf] at hf; exact hf
  | cons c s2 ih =>
    simp only [suffixAny, Bool.or_eq_true, ih]
    constructor
    · rintro (h | ⟨s3, hsuf, hf⟩)
      · exact ⟨c :: s2, List.suffix_rfl, h⟩
      · exact ⟨s3, hsuf.trans (List.suffix_cons c s2), hf⟩
    · rintro ⟨s3, hsuf, hf⟩
      rcases List.suffix_cons_iff.mp hsuf with rfl | hsuf2
      · exact Or.inl hf
      · exact Or.inr ⟨s3, hsuf2, hf⟩

theorem likeMatch_prefix_percent {t : Str} (ht : wildcardFree t) :
    ∀ s, likeMatch (t ++ [percentChar]) s = true ↔ t <+: s := by
  induction t with
  | nil =>
    intro s
    simp only [List.nil_append, List.nil_prefix, iff_true]
    show likeMatch [percentChar] s = true
    unfold likeMatch
    simp only [if_pos rfl]
    exact suffixAny_eq_true.mpr ⟨[], List.nil_suffix, rfl⟩
  | cons a t ih =>
    intro s
    obtain ⟨hap, hau⟩ := ht a (List.mem_cons_self a t)
    have ht2 : wildcardFree t := fun c hc => ht c (List.mem_cons_of_mem a hc)
    show likeMatch (a :: (t ++ [percentChar])) s = true ↔ a :: t <+: s
    unfold likeMatch
    rw [if_neg hap]
    cases s with
    | nil => simp
    | cons c s2 =>
      simp only [decide_eq_true_eq, Bool.and_eq_true, Bool.or_eq_true, List.cons_prefix_cons,
        ih ht2 s2]
      constructor
      · rintro ⟨(h | h), hm⟩
        · exact absurd h hau
        · exact ⟨h, hm⟩
      · rintro ⟨h, hm⟩
        exact ⟨Or.inr h, hm⟩

theorem likeContains_iff_infix {t : Str} (ht : wildcardFree t) (s : Str) :
    likeContains t s = true ↔ t <:+: s := by
  show likeMatch (percentChar :: (t ++ [percentChar])) s = true ↔ t <:+: s
  unfold likeMatch
  rw [if_pos rfl]
  rw [suffixAny_eq_true]
  rw [List.infix_iff_prefix_suffix]
  constructor
  · rintro ⟨s2, hsuf, hm⟩
    exact ⟨s2, (likeMatch_prefix_percent ht s2).mp hm, hsuf⟩
  · rintro ⟨s2, hpre, hsuf⟩
    exact ⟨s2, hsuf, (likeMatch_prefix_percent ht s2).mpr hpre⟩

theorem length_filter_enumFrom_mod {α : Type} (step : Nat) (hstep : 0 < step) :
    ∀ (l : List α) (k : Nat),
      ((List.enumFrom k l).filter (fun p => p.1 % step == 0)).length + (k + step - 1) / step
        = (k + l.length + step - 1) / step := by
  intro l
  induction l with
  | nil => intro k; simp [List.enumFrom]
  | cons a l ih =>
    intro k
    have hsd : (k + step) / step = (k + step - 1) / step + if step ∣ k then 1 else 0 := by
      have h1 : k + step - 1 + 1 = k + step := by omega
      rw [← h1, Nat.succ_div, h1]
      simp only [Nat.dvd_add_self_right]
    have hih := ih (k + 1)
    have e1 : k + 1 + step - 1 = k + step := by omega
    have e2 : k + 1 + l.length + step - 1 = k + (a :: l).length + step - 1 := by
      simp only [List.length_cons]; omega
    rw [e1, e2] at hih
    have hfe : ((List.enumFrom k (a :: l)).filter (fun p => p.1 % step == 0)).length =
        (if step ∣ k then 1 else 0) +
          ((List.enumFrom (k + 1) l).filter (fun p => p.1 % step == 0)).length := by
      by_cases hk : step ∣ k
      · have hk0 : k % step = 0 := Nat.dvd_iff_mod_eq_zero.mp hk
        simp [List.enumFrom, List.filter_cons, hk0, hk]
        omega
      · have hk0 : ¬ k % step = 0 := fun h => hk (Nat.dvd_iff_mod_eq_zero.mpr h)
        simp [List.enumFrom, List.filter_cons, hk0, hk]
    rw [hfe]
    by_cases hk : step ∣ k
    · rw [if_pos hk] at *
      omega
    · rw [if_neg hk] at *
      omega

theorem capTiles_stride (tiles : List TileInfo) (h : tiles.length > MAX_TILES) :
    capTilesForGeocode false tiles =
      (tiles.enum.filter
        (fun p => p.1 % ((tiles.length + MAX_TILES - 1) / MAX_TILES) == 0)).map Prod.snd := by
  have hstep : 0 < (tiles.length + MAX_TILES - 1) / MAX_TILES := by
    simp only [MAX_TILES] at *
    omega
  have hcount : ((tiles.enum.filter
      (fun p => p.1 % ((tiles.length + MAX_TILES - 1) / MAX_TILES) == 0)).map
        Prod.snd).length ≤ MAX_TILES := by
    rw [List.length_map]
    have hlfe := length_filter_enumFrom_mod ((tiles.length + MAX_TILES - 1) / MAX_TILES)
      hstep tiles 0
    have henum : tiles.enum = List.enumFrom 0 tiles := rfl
    rw [← henum] at hlfe
    simp only [Nat.zero_add] at hlfe
    have hz : ((tiles.length + MAX_TILES - 1) / MAX_TILES - 1) /
        ((tiles.length + MAX_TILES - 1) / MAX_TILES) = 0 :=
      Nat.div_eq_of_lt (by omega)
    rw [hz, Nat.add_zero] at hlfe
    rw [hlfe]
    have hmul : tiles.length ≤ MAX_TILES * ((tiles.length + MAX_TILES - 1) / MAX_TILES) := by
      simp only [MAX_TILES] at *
      omega
    have hlt : tiles.length + (tiles.length + MAX_TILES - 1) / MAX_TILES - 1 <
        (MAX_TILES + 1) * ((tiles.length + MAX_TILES - 1) / MAX_TILES) := by
      simp only [MAX_TILES] at *
      omega
    have := (Nat.div_lt_iff_lt_mul hstep).mpr hlt
    omega
  unfold capTilesForGeocode
  rw [if_pos (by exact h)]
  simp only [Bool.false_eq_true, if_false]
  exact List.take_of_length_le hcount

theorem capTiles_smallest (tiles : List TileInfo) (h : tiles.length > MAX_TILES) :
    (capTilesForGeocode true tiles).length = MAX_TILES ∧
    ∃ rest, ((capTilesForGeocode true tiles) ++ rest).Perm tiles ∧
      ∀ a ∈ capTilesForGeocode true tiles, ∀ b ∈ rest, a.file_size_kb ≤ b.file_size_kb := by
  haveI : IsTotal TileInfo (fun a b => a.file_size_kb ≤ b.file_size_kb) :=
    ⟨fun a b => Nat.le_total _ _⟩
  haveI : IsTrans TileInfo (fun a b => a.file_size_kb ≤ b.file_size_kb) :=
    ⟨fun _ _ _ hab hbc => le_trans hab hbc⟩
  have hcap : capTilesForGeocode true tiles =
      (tiles.insertionSort (fun a b => a.file_size_kb ≤ b.file_size_kb)).take MAX_TILES := by
    unfold capTilesForGeocode
    rw [if_pos (by exact h)]
    rfl
  have hlen : (tiles.insertionSort (fun a b => a.file_size_kb ≤ b.file_size_kb)).length =
      tiles.length := (List.perm_insertionSort _ _).length_eq
  have hsorted := List.sorted_insertionSort (fun a b => a.file_size_kb ≤ b.file_size_kb) tiles
  refine ⟨?_, (tiles.insertionSort (fun a b => a.file_size_kb ≤ b.file_size_kb)).drop MAX_TILES,
    ?_, ?_⟩
  · rw [hcap, List.length_take, hlen]
    omega
  · rw [hcap, List.take_append_drop]
    exact List.perm_insertionSort _ _
  · intro a ha b hb
    rw [hcap] at ha
    have hpw : List.Pairwise (fun a b : TileInfo => a.file_size_kb ≤ b.file_size_kb)
        ((tiles.insertionSort (fun a b => a.file_size_kb ≤ b.file_size_kb)).take MAX_TILES ++
         (tiles.insertionSort (fun a b => a.file_size_kb ≤ b.file_size_kb)).drop MAX_TILES) := by
      rw [List.take_append_drop]
      exact hsorted
    exact (List.pairwise_append.mp hpw).2.2 a ha b hb

theorem capTilesForGeocode_length_le (hf : Bool) (tiles : List TileInfo) :
    (capTilesForGeocode hf tiles).length ≤ MAX_TILES := by
  unfold capTilesForGeocode
  split
  · split
    · rw [List.length_take]
      exact Nat.min_le_left _ _
    · dsimp only
      rw [List.length_take]
      exact Nat.min_le_left _ _
  · omega

theorem geocode_urls_length_le (be : Backend) (s : SDKState) (address : Str)
    (o : GeocodeOptions) : ((geocode be s address o).2).length ≤ MAX_TILES := by
  unfold geocode
  dsimp only
  split
  · simp [MAX_TILES]
  · split
    · split
      · dsimp only
        rw [List.length_map]
        exact capTilesForGeocode_length_le _ _
      · dsimp only
        rw [List.length_map]
        exact capTilesForGeocode_length_le _ _
    · dsimp only
      rw [List.length_map]
      exact capTilesForGeocode_length_le _ _

theorem reverseGeocode_ok_shape (be : Backend) (s : SDKState) (lat lon : Rat)
    (o : ReverseOptions) (l : List GeocodingResult)
    (h : (reverseGeocode be s lat lon o).1 = .ok l) :
    l = [] ∨ ∃ rows : List (AddressRow × Rat),
      l = ((rows.insertionSort (fun a b => a.2 ≤ b.2)).take o.limit).map
        (fun p => mapRowToResult o.detailLevel p.1 p.2) := by
  unfold reverseGeocode at h
  split at h
  · split at h
    · exact Or.inl (by simpa using h.symm)
    · split at h
      · exact Or.inl (by simpa using h.symm)
      · dsimp only at h
        split at h
        · simp at h
        · dsimp only at h
          simp only [Except.ok.injEq] at h
          exact Or.inr ⟨_, h.symm⟩
  · exact Or.inl (by simpa using h.symm)

/-- C5: for every point that the country gate reports as outside Saudi
Arabia (including every point failing the cheap bounding-box pre-check,
such as (0, 0)), `reverseGeocode` returns the empty list, raises no error,
and fetches no partition. -/
theorem C5_reverseGeocode_outside_country (be : Backend) (s : SDKState)
    (lat lon : Rat) (o : ReverseOptions) (h : isInSaudiArabia be lat lon = false) :
    reverseGeocode be s lat lon o = (.ok [], []) := by
  unfold reverseGeocode
  rw [h]
  simp

theorem C5_witness :
    isInSaudiArabia sampleBackend 0 0 = false ∧
    reverseGeocode sampleBackend sampleState 0 0 {} = (.ok [], []) := by
  have h : isInSaudiArabia sampleBackend 0 0 = false := by with_unfolding_all decide
  exact ⟨h, C5_reverseGeocode_outside_country sampleBackend sampleState 0 0 {} h⟩

/-- C10: `initialize` on an already-initialized instance returns
immediately: the state (tile index, postcode index, FTS availability flag,
effective base URL) is unchanged and nothing is fetched. -/
theorem C10_initialize_idempotent (f : InitOracle) (s : SDKState)
    (h : s.initialized = true) : initializeSdk f s = (.ok s, []) := by
  unfold initializeSdk
  rw [h]
  simp

theorem C10_witness :
    sampleState.initialized = true ∧
    initializeSdk sampleInitOracle sampleState = (.ok sampleState, []) :=
  ⟨rfl, C10_initialize_idempotent sampleInitOracle sampleState rfl⟩

theorem fst_mem_pairs2 (b x y : Str) :
    ∀ p ∈ [(b, x), (b, y)], (p : Str × Str).1 = b := by
  intro p hp
  simp only [List.mem_cons, List.not_mem_nil, or_false] at hp
  rcases hp with rfl | rfl <;> rfl

theorem fst_mem_pairs3 (b x y z : Str) :
    ∀ p ∈ [(b, x), (b, y), (b, z)], (p : Str × Str).1 = b := by
  intro p hp
  simp only [List.mem_cons, List.not_mem_nil, or_false] at hp
  rcases hp with rfl | rfl | rfl <;> rfl

theorem fst_mem_pairs4 (b x y z w : Str) :
    ∀ p ∈ [(b, x), (b, y), (b, z), (b, w)], (p : Str × Str).1 = b := by
  intro p hp
  simp only [List.mem_cons, List.not_mem_nil, or_false] at hp
  rcases hp with rfl | rfl | rfl | rfl <;> rfl

theorem finishInit_trace (f : InitOracle) (s : SDKState) (idx : List TileInfo)
    (base : Str) (atts : List (Str × Str)) :
    ∃ extra, (finishInit f s idx base atts).2 = atts ++ extra ∧
      ∀ p ∈ extra, p.1 = base := by
  unfold finishInit
  repeat' split
  all_goals
    refine ⟨_, by dsimp only; rw [List.append_assoc], ?_⟩
    intro p hp
    simp only [List.cons_append, List.nil_append, List.singleton_append, List.mem_cons,
      List.not_mem_nil, or_false] at hp
    rcases p with ⟨u, v⟩
    simp only [Prod.mk.injEq] at hp
    show u = base
    tauto

theorem finishInit_ok_dataUrl (f : InitOracle) (s : SDKState) (idx : List TileInfo)
    (base : Str) (atts : List (Str × Str)) (s2 : SDKState)
    (h : (finishInit f s idx base atts).1 = .ok s2) : s2.dataUrl = base := by
  unfold finishInit at h
  repeat' split at h
  all_goals
    first
    | (exfalso; simp at h; done)
    | (dsimp only at h
       simp only [Except.ok.injEq] at h
       simp [← h])

/-- C9: during initialization with a custom base URL whose tile-index fetch
fails, the load is retried exactly once against the hard-coded default URL,
all subsequent fetches of that call use the default URL, an overall success
leaves the default as the effective base URL, and failure of both attempts
raises a hard error naming both; when the configured URL already equals the
default, no second attempt is made and the error propagates. -/
theorem C9_initialize_fallback (f : InitOracle) (s : SDKState) (e : Str)
    (hinit : s.initialized = false) :
    (s.dataUrl ≠ DEFAULT_DATA_URL → f.fetchTileIndex s.dataUrl = .error e →
      initFallbackSpec f s e) ∧
    (s.dataUrl = DEFAULT_DATA_URL → f.fetchTileIndex s.dataUrl = .error e →
      initializeSdk f s = (.error e, [(s.dataUrl, tileIndexFile)])) := by
  constructor
  · intro hne herr
    have hred : initializeSdk f s =
        match f.fetchTileIndex DEFAULT_DATA_URL with
        | .ok idx =>
          finishInit f s idx DEFAULT_DATA_URL
            [(s.dataUrl, tileIndexFile), (DEFAULT_DATA_URL, tileIndexFile)]
        | .error _ =>
          (.error ("Failed to load tile index from both custom and default URLs: ".toList ++ e),
           [(s.dataUrl, tileIndexFile), (DEFAULT_DATA_URL, tileIndexFile)]) := by
      unfold initializeSdk
      rw [hinit, herr]
      simp only [Bool.false_eq_true, if_false]
      rw [if_pos hne]
    cases hd : f.fetchTileIndex DEFAULT_DATA_URL with
    | ok idx =>
      rw [hd] at hred
      dsimp only at hred
      obtain ⟨extra, hext, hbase⟩ := finishInit_trace f s idx DEFAULT_DATA_URL
        [(s.dataUrl, tileIndexFile), (DEFAULT_DATA_URL, tileIndexFile)]
      refine ⟨?_, ?_, ?_, ?_⟩
      · rw [hred, hext]
        rfl
      · intro p hp
        rw [hred, hext] at hp
        exact hbase p (by simpa using hp)
      · intro s2 h2
        rw [hred] at h2
        exact finishInit_ok_dataUrl f s idx DEFAULT_DATA_URL _ s2 h2
      · intro e2 he2
        rw [hd] at he2
        simp at he2
    | error e2 =>
      rw [hd] at hred
      dsimp only at hred
      refine ⟨?_, ?_, ?_, ?_⟩
      · rw [hred]
        rfl
      · intro p hp
        rw [hred] at hp
        simp at hp
      · intro s2 h2
        rw [hred] at h2
        simp at h2
      · intro e3 _
        rw [hred]
  · intro heq herr
    unfold initializeSdk
    rw [hinit, herr]
    simp only [Bool.false_eq_true, if_false]
    rw [if_neg (by simp [heq])]

theorem C9_witness :
    sampleFreshState.initialized = false ∧
    sampleFreshState.dataUrl ≠ DEFAULT_DATA_URL ∧
    sampleInitOracle.fetchTileIndex sampleFreshState.dataUrl = .error "404".toList ∧
    initFallbackSpec sampleInitOracle sampleFreshState "404".toList := by
  have h1 : sampleFreshState.initialized = false := rfl
  have h2 : sampleFreshState.dataUrl ≠ DEFAULT_DATA_URL := by decide
  have h3 : sampleInitOracle.fetchTileIndex sampleFreshState.dataUrl = .error "404".toList := by
    decide
  exact ⟨h1, h2, h3,
    (C9_initialize_fallback sampleInitOracle sampleFreshState "404".toList h1).1 h2 h3⟩

theorem mapRowToResult_distance (lvl : DetailLevel) (row : AddressRow) (d : Rat) :
    (mapRowToResult lvl row d).distance_m = some d := by
  cases lvl <;> rfl

/-- C8: every record returned by `reverseGeocode` at `detailLevel = minimal`
carries exactly the fields `addr_id`, `longitude`, `latitude`, `distance_m`
and no others, and the populated field sets of the four detail levels are
strictly increasing (minimal ⊂ postcode ⊂ region ⊂ full, the latter on rows
whose nullable full-address columns are present). -/
theorem C8_detail_level_fields (be : Backend) (s : SDKState) (lat lon : Rat)
    (o : ReverseOptions) (l : List GeocodingResult)
    (hlvl : o.detailLevel = .minimal)
    (h : (reverseGeocode be s lat lon o).1 = .ok l) :
    (∀ r ∈ l, resultFields r =
      [ResultField.addr_id, ResultField.longitude, ResultField.latitude, ResultField.distance_m]) ∧
    (∀ (row : AddressRow) (d : Rat),
      row.full_address_ar.isSome → row.full_address_en.isSome →
      (resultFields (mapRowToResult .minimal row d)).toFinset ⊂
        (resultFields (mapRowToResult .postcode row d)).toFinset ∧
      (resultFields (mapRowToResult .postcode row d)).toFinset ⊂
        (resultFields (mapRowToResult .region row d)).toFinset ∧
      (resultFields (mapRowToResult .region row d)).toFinset ⊂
        (resultFields (mapRowToResult .full row d)).toFinset) := by
  constructor
  · intro r hr
    rcases reverseGeocode_ok_shape be s lat lon o l h with rfl | ⟨rows, rfl⟩
    · exact absurd hr (List.not_mem_nil r)
    · obtain ⟨p, _, rfl⟩ := List.mem_map.mp hr
      rw [hlvl]
      rfl
  · intro row d har hen
    obtain ⟨a, ha⟩ := Option.isSome_iff_exists.mp har
    obtain ⟨b, hb⟩ := Option.isSome_iff_exists.mp hen
    refine ⟨?_, ?_, ?_⟩ <;>
      simp [mapRowToResult, resultFields, ha, hb, Finset.ssubset_iff_subset_ne] <;>
      decide

set_option maxRecDepth 400000 in
theorem C8_witness :
    ({ detailLevel := .minimal } : ReverseOptions).detailLevel = DetailLevel.minimal ∧
    (reverseGeocode sampleBackend sampleState 24 46 { detailLevel := .minimal }).1 =
      .ok [mapRowToResult .minimal (sampleRow 2 "13847".toList "7".toList) 5,
           mapRowToResult .minimal (sampleRow 1 "13847".toList "4".toList) 5,
           mapRowToResult .minimal (sampleRow 3 "11111".toList "4037".toList) 5] ∧
    ((∀ r ∈ [mapRowToResult .minimal (sampleRow 2 "13847".toList "7".toList) 5,
             mapRowToResult .minimal (sampleRow 1 "13847".toList "4".toList) 5,
             mapRowToResult .minimal (sampleRow 3 "11111".toList "4037".toList) 5],
        resultFields r =
          [ResultField.addr_id, ResultField.longitude, ResultField.latitude,
           ResultField.distance_m]) ∧
     (∀ (row : AddressRow) (d : Rat),
        row.full_address_ar.isSome → row.full_address_en.isSome →
        (resultFields (mapRowToResult .minimal row d)).toFinset ⊂
          (resultFields (mapRowToResult .postcode row d)).toFinset ∧
        (resultFields (mapRowToResult .postcode row d)).toFinset ⊂
          (resultFields (mapRowToResult .region row d)).toFinset ∧
        (resultFields (mapRowToResult .region row d)).toFinset ⊂
          (resultFields (mapRowToResult .full row d)).toFinset)) := by
  have hlvl : ({ detailLevel := .minimal } : ReverseOptions).detailLevel =
      DetailLevel.minimal := rfl
  have h : (reverseGeocode sampleBackend sampleState 24 46 { detailLevel := .minimal }).1 =
      .ok [mapRowToResult .minimal (sampleRow 2 "13847".toList "7".toList) 5,
           mapRowToResult .minimal (sampleRow 1 "13847".toList "4".toList) 5,
           mapRowToResult .minimal (sampleRow 3 "11111".toList "4037".toList) 5] := by
    with_unfolding_all decide
  exact ⟨hlvl, h, C8_detail_level_fields sampleBackend sampleState 24 46
    { detailLevel := .minimal } _ hlvl h⟩

/-- C6: once more than `MAX_TILES` candidate partitions survive the
bbox/region filtering stage of `geocode`, the filtered branch keeps exactly
the `MAX_TILES` smallest-file candidates, the unfiltered branch keeps
exactly the stride sample at indices that are multiples of
`ceil(len / MAX_TILES)` (the trailing `slice(0, MAX_TILES)` is a no-op),
and no `geocode` call queries more than `MAX_TILES` partitions. -/
theorem C6_partition_cap (tiles : List TileInfo) (h : tiles.length > MAX_TILES) :
    capSpec tiles := by
  obtain ⟨h1, h2⟩ := capTiles_smallest tiles h
  exact ⟨h1, h2, capTiles_stride tiles h, capTilesForGeocode_length_le false tiles,
    fun be s address o => geocode_urls_length_le be s address o⟩

theorem C6_witness : sampleTiles51.length > MAX_TILES ∧ capSpec sampleTiles51 :=
  ⟨by decide, C6_partition_cap sampleTiles51 (by decide)⟩

theorem mergeFetchSpec_trivial (be : Backend)
    (res : Except Str (List GeocodingResult) × List Str)
    (h2 : res.2 = []) (h1 : res.1 = .ok []) : mergeFetchSpec be res := by
  constructor
  · intro _
    exact ⟨[], h1⟩
  · intro u hu
    rw [h2] at hu
    exact absurd hu (List.not_mem_nil u)

theorem mergeFetchSpec_of_match (be : Backend) (urls : List Str)
    (f : List AddressRow → List GeocodingResult) :
    mergeFetchSpec be
      (match readParquetList be urls with
       | .error e => (.error e, urls)
       | .ok rows => (.ok (f rows), urls)) := by
  cases hr : readParquetList be urls with
  | error e =>
    constructor
    · intro hall
      obtain ⟨rows, hok⟩ := readParquetList_ok_of_forall hall
      rw [hr] at hok
      simp at hok
    · intro u hu e2 he2
      exact ⟨e, rfl⟩
  | ok rows =>
    constructor
    · intro _
      exact ⟨f rows, rfl⟩
    · intro u hu e2 he2
      obtain ⟨rs, hok⟩ := readParquetList_ok_forall hr u hu
      rw [he2] at hok
      simp at hok

theorem reverseGeocode_mergeFetch (be : Backend) (s : SDKState) (lat lon : Rat)
    (o : ReverseOptions) : mergeFetchSpec be (reverseGeocode be s lat lon o) := by
  unfold reverseGeocode
  split
  · split
    · exact mergeFetchSpec_trivial be _ rfl rfl
    · split
      · exact mergeFetchSpec_trivial be _ rfl rfl
      · dsimp only
        exact mergeFetchSpec_of_match be _ _
  · exact mergeFetchSpec_trivial be _ rfl rfl

theorem mergeFetchSpec_fallback (be : Backend) (urls : List Str) (cleanAddress : Str)
    (isArabic : Bool) (limit : Nat) :
    mergeFetchSpec be (geocodeFallback be urls cleanAddress isArabic limit, urls) := by
  unfold geocodeFallback
  cases hr : readParquetList be urls with
  | error e =>
    constructor
    · intro hall
      obtain ⟨rows, hok⟩ := readParquetList_ok_of_forall hall
      rw [hr] at hok
      simp at hok
    · intro u hu e2 he2
      exact ⟨e, rfl⟩
  | ok rows =>
    constructor
    · intro _
      exact ⟨_, rfl⟩
    · intro u hu e2 he2
      obtain ⟨rs, hok⟩ := readParquetList_ok_forall hr u hu
      rw [he2] at hok
      simp at hok

theorem geocode_mergeFetch (be : Backend) (s : SDKState) (address : Str)
    (o : GeocodeOptions) (hfts : s.ftsAvailable = false) :
    mergeFetchSpec be (geocode be s address o) := by
  unfold geocode
  dsimp only
  split
  · exact mergeFetchSpec_trivial be _ rfl rfl
  · rw [hfts]
    simp only [Bool.false_eq_true, if_false]
    exact mergeFetchSpec_fallback be _ _ _ _

theorem searchByPostcode_mergeFetch (be : Backend) (s : SDKState) (code : Str)
    (o : PostcodeOptions) : mergeFetchSpec be (searchByPostcode be s code o) := by
  unfold searchByPostcode
  split
  · exact mergeFetchSpec_trivial be _ rfl rfl
  · exact mergeFetchSpec_of_match be _ _

/-- C2 (amended): every multi-partition operation issues one combined
backend request over its candidate partitions; the operation can return
rows only when every candidate partition fetch succeeds (all rows are then
merged), and a failure of any candidate partition fetch makes the whole
operation surface an error — there is no per-partition skipping.  For
`geocode` this covers the fallback strategy (with ranked search enabled the
combined fetch happens inside the opaque ranked-search oracle). -/
theorem C2_combined_request_failure_semantics (be : Backend) (s : SDKState) :
    (∀ lat lon o, mergeFetchSpec be (reverseGeocode be s lat lon o)) ∧
    (s.ftsAvailable = false → ∀ address o, mergeFetchSpec be (geocode be s address o)) ∧
    (∀ code o, mergeFetchSpec be (searchByPostcode be s code o)) :=
  ⟨fun lat lon o => reverseGeocode_mergeFetch be s lat lon o,
   fun hfts address o => geocode_mergeFetch be s address o hfts,
   fun code o => searchByPostcode_mergeFetch be s code o⟩

set_option maxRecDepth 400000 in
theorem C2_counterexample :
    sampleBackend.fetchParquet (tileUrl "d".toList "t1".toList) = .ok sampleRows ∧
    sampleRows ≠ [] ∧
    (reverseGeocode sampleBackend sampleState 24 46 { includeNeighbors := true }).1 =
      .error "boom".toList := by
  refine ⟨by decide, by decide, ?_⟩
  with_unfolding_all decide

set_option maxRecDepth 400000 in
theorem C2_witness :
    (tileUrl "d".toList "t2".toList ∈
      (reverseGeocode sampleBackend sampleState 24 46 { includeNeighbors := true }).2) ∧
    sampleBackend.fetchParquet (tileUrl "d".toList "t2".toList) = .error "boom".toList ∧
    (∃ e2, (reverseGeocode sampleBackend sampleState 24 46
      { includeNeighbors := true }).1 = .error e2) := by
  have hmem : tileUrl "d".toList "t2".toList ∈
      (reverseGeocode sampleBackend sampleState 24 46 { includeNeighbors := true }).2 := by
    with_unfolding_all decide
  have herr : sampleBackend.fetchParquet (tileUrl "d".toList "t2".toList) =
      .error "boom".toList := by decide
  exact ⟨hmem, herr,
    ((C2_combined_request_failure_semantics sampleBackend sampleState).1 24 46
      { includeNeighbors := true }).2 _ hmem _ herr⟩

/-- C3 (amended): every `.ok` result of `reverseGeocode` has length at most
`limit`, every returned record carries a distance, and the list is sorted by
`distance_m` in non-decreasing order.  (Ties keep the merged backend row
order; no tie-break on `addr_id` is applied.) -/
theorem C3_reverseGeocode_sorted (be : Backend) (s : SDKState) (lat lon : Rat)
    (o : ReverseOptions) (l : List GeocodingResult)
    (h : (reverseGeocode be s lat lon o).1 = .ok l) :
    l.length ≤ o.limit ∧ (∀ r ∈ l, r.distance_m.isSome) ∧
    l.Pairwise (fun a b => a.distance_m.getD 0 ≤ b.distance_m.getD 0) := by
  rcases reverseGeocode_ok_shape be s lat lon o l h with rfl | ⟨rows, rfl⟩
  · exact ⟨Nat.zero_le _, fun r hr => absurd hr (List.not_mem_nil r), List.Pairwise.nil⟩
  · haveI : IsTotal (AddressRow × Rat) (fun a b => a.2 ≤ b.2) :=
      ⟨fun a b => le_total a.2 b.2⟩
    haveI : IsTrans (AddressRow × Rat) (fun a b => a.2 ≤ b.2) :=
      ⟨fun _ _ _ hab hbc => le_trans hab hbc⟩
    refine ⟨?_, ?_, ?_⟩
    · rw [List.length_map, List.length_take]
      exact Nat.min_le_left _ _
    · intro r hr
      obtain ⟨p, _, rfl⟩ := List.mem_map.mp hr
      rw [mapRowToResult_distance]
      rfl
    · rw [List.pairwise_map]
      have hsorted := List.sorted_insertionSort (fun a b : AddressRow × Rat => a.2 ≤ b.2) rows
      have htake : ((rows.insertionSort (fun a b => a.2 ≤ b.2)).take o.limit).Pairwise
          (fun a b : AddressRow × Rat => a.2 ≤ b.2) :=
        hsorted.sublist (List.take_sublist o.limit _)
      refine htake.imp ?_
      intro a b hab
      rw [mapRowToResult_distance, mapRowToResult_distance]
      exact hab

set_option maxRecDepth 400000 in
theorem C3_counterexample :
    (reverseGeocode sampleBackend sampleState 24 46 {}).1 =
      .ok [mapRowToResult .full (sampleRow 2 "13847".toList "7".toList) 5,
           mapRowToResult .full (sampleRow 1 "13847".toList "4".toList) 5,
           mapRowToResult .full (sampleRow 3 "11111".toList "4037".toList) 5] ∧
    (mapRowToResult .full (sampleRow 2 "13847".toList "7".toList) 5).distance_m =
      (mapRowToResult .full (sampleRow 1 "13847".toList "4".toList) 5).distance_m ∧
    (mapRowToResult .full (sampleRow 1 "13847".toList "4".toList) 5).addr_id <
      (mapRowToResult .full (sampleRow 2 "13847".toList "7".toList) 5).addr_id := by
  refine ⟨?_, by decide, by decide⟩
  with_unfolding_all decide

set_option maxRecDepth 400000 in
theorem C3_witness :
    (reverseGeocode sampleBackend sampleState 24 46 {}).1 =
      .ok [mapRowToResult .full (sampleRow 2 "13847".toList "7".toList) 5,
           mapRowToResult .full (sampleRow 1 "13847".toList "4".toList) 5,
           mapRowToResult .full (sampleRow 3 "11111".toList "4037".toList) 5] ∧
    ([mapRowToResult .full (sampleRow 2 "13847".toList "7".toList) 5,
      mapRowToResult .full (sampleRow 1 "13847".toList "4".toList) 5,
      mapRowToResult .full (sampleRow 3 "11111".toList "4037".toList) 5].length ≤
        ({} : ReverseOptions).limit ∧
     (∀ r ∈ [mapRowToResult .full (sampleRow 2 "13847".toList "7".toList) 5,
             mapRowToResult .full (sampleRow 1 "13847".toList "4".toList) 5,
             mapRowToResult .full (sampleRow 3 "11111".toList "4037".toList) 5],
        r.distance_m.isSome) ∧
     [mapRowToResult .full (sampleRow 2 "13847".toList "7".toList) 5,
      mapRowToResult .full (sampleRow 1 "13847".toList "4".toList) 5,
      mapRowToResult .full (sampleRow 3 "11111".toList "4037".toList) 5].Pairwise
        (fun a b => a.distance_m.getD 0 ≤ b.distance_m.getD 0)) := by
  have h : (reverseGeocode sampleBackend sampleState 24 46 {}).1 =
      .ok [mapRowToResult .full (sampleRow 2 "13847".toList "7".toList) 5,
           mapRowToResult .full (sampleRow 1 "13847".toList "4".toList) 5,
           mapRowToResult .full (sampleRow 3 "11111".toList "4037".toList) 5] := by
    with_unfolding_all decide
  exact ⟨h, C3_reverseGeocode_sorted sampleBackend sampleState 24 46 {} _ h⟩

/-- C4 (amended): every record returned by `searchByPostcode(code)` has its
postcode field exactly equal to `code`; a code whose digit-normalized form
has no entry in the postcode index yields the empty list with no error and
no fetch; and when the optional house-number filter is given (and still
nonempty after digit normalization), every returned record's house number
equals the digit-normalized, trimmed filter value — which is the filter
string itself whenever it is already in Western digits. -/
theorem C4_searchByPostcode_exact (be : Backend) (s : SDKState) (code : Str)
    (o : PostcodeOptions) :
    (s.postcodeIndex.lookup (toWesternDigits (trimStr code)) = none →
      searchByPostcode be s code o = (.ok [], [])) ∧
    (∀ l, (searchByPostcode be s code o).1 = .ok l → ∀ r ∈ l,
      r.postcode = some code ∧
      (∀ m, effectiveNumberFilter o.number = some m → r.number = some m)) := by
  constructor
  · intro hnone
    unfold searchByPostcode
    rw [hnone]
  · intro l h r hr
    unfold searchByPostcode at h
    split at h
    · dsimp only at h
      simp only [Except.ok.injEq] at h
      subst h
      exact absurd hr (List.not_mem_nil r)
    · rename_i info heq
      simp only [] at h
      cases hrd : readParquetList be (List.map (tileUrl s.dataUrl) info.tiles) with
      | error e =>
        rw [hrd] at h
        simp at h
      | ok rows =>
        rw [hrd] at h
        dsimp only at h
        simp only [Except.ok.injEq] at h
        subst h
        obtain ⟨p, hp, rfl⟩ := List.mem_map.mp hr
        have hp2 := List.mem_of_mem_take hp
        have hp3 := (List.mem_insertionSort _).mp hp2
        obtain ⟨_, hcond⟩ := List.mem_filter.mp hp3
        rw [Bool.and_eq_true] at hcond
        obtain ⟨h1, h2⟩ := hcond
        constructor
        · show some p.postcode = some code
          rw [beq_iff_eq.mp h1]
        · intro m hm
          rw [hm] at h2
          show some p.number = some m
          rw [beq_iff_eq.mp h2]

theorem C4_counterexample :
    (searchByPostcode sampleBackend sampleState "11111".toList
        { number := some "٤٠٣٧".toList }).1 =
      .ok [searchRowToResult (sampleRow 3 "11111".toList "4037".toList)] ∧
    (searchRowToResult (sampleRow 3 "11111".toList "4037".toList)).number =
      some "4037".toList ∧
    (searchRowToResult (sampleRow 3 "11111".toList "4037".toList)).number ≠
      some "٤٠٣٧".toList := by
  refine ⟨by decide, by decide, by decide⟩

theorem C4_witness :
    (searchByPostcode sampleBackend sampleState "13847".toList
        { number := some "4".toList }).1 =
      .ok [searchRowToResult (sampleRow 1 "13847".toList "4".toList)] ∧
    (searchRowToResult (sampleRow 1 "13847".toList "4".toList)).postcode =
      some "13847".toList ∧
    (searchRowToResult (sampleRow 1 "13847".toList "4".toList)).number =
      some "4".toList := by
  have h : (searchByPostcode sampleBackend sampleState "13847".toList
      { number := some "4".toList }).1 =
      .ok [searchRowToResult (sampleRow 1 "13847".toList "4".toList)] := by decide
  have hmem : searchRowToResult (sampleRow 1 "13847".toList "4".toList) ∈
      [searchRowToResult (sampleRow 1 "13847".toList "4".toList)] :=
    List.mem_singleton.mpr rfl
  have hr := (C4_searchByPostcode_exact sampleBackend sampleState "13847".toList
    { number := some "4".toList }).2 _ h _ hmem
  exact ⟨h, hr.1, hr.2 "4".toList (by decide)⟩

/-- C7 (amended): in the fallback text-search strategy of `geocode`, the
query is tokenized on whitespace/comma/Arabic comma, tokens shorter than 2
characters are discarded, at most the first 5 surviving tokens are kept;
every returned record's (script-selected) address field matches at least
one kept token under SQL `LIKE` semantics — where `%` matches any sequence
and `_` any single character, which for wildcard-free tokens is exactly
substring containment (case-insensitive for Latin script via `UPPER`) —
and when no tokens survive, the gate is the SQL constant `TRUE` so all
rows pass to similarity ranking. -/
theorem C7_fallback_token_gate (be : Backend) (s : SDKState) (address : Str)
    (o : GeocodeOptions) (l : List GeocodingResult)
    (hfts : s.ftsAvailable = false)
    (h : (geocode be s address o).1 = .ok l) :
    fallbackResultSpec address l := by
  unfold fallbackResultSpec
  refine ⟨?_, ?_, ?_, fun b a => rfl, fun t a ht => likeContains_iff_infix ht a⟩
  · intro t ht
    have ht2 := List.mem_of_mem_take ht
    obtain ⟨_, hcond⟩ := List.mem_filter.mp ht2
    exact of_decide_eq_true hcond
  · exact List.length_take_le _ _
  · intro hne r hr
    unfold geocode at h
    simp only [hfts, Bool.false_eq_true, if_false] at h
    split at h
    · dsimp only at h
      simp only [Except.ok.injEq] at h
      subst h
      exact absurd hr (List.not_mem_nil r)
    · dsimp only at h
      unfold geocodeFallback at h
      split at h
      · simp at h
      · dsimp only at h
        simp only [Except.ok.injEq] at h
        subst h
        obtain ⟨p, hp, rfl⟩ := List.mem_map.mp hr
        have hp2 := List.mem_of_mem_take hp
        have hp3 := (List.mem_insertionSort _).mp hp2
        obtain ⟨row, hrow, rfl⟩ := List.mem_map.mp hp3
        obtain ⟨_, hcond⟩ := List.mem_filter.mp hrow
        rw [Bool.and_eq_true] at hcond
        obtain ⟨hsome, hgate⟩ := hcond
        obtain ⟨addr, haddr⟩ := Option.isSome_iff_exists.mp hsome
        unfold fallbackGate at hgate
        have hemp : (searchTermsOf (escapeQuotes (toWesternDigits (trimStr address)))).isEmpty
            = false := by
          cases hterm : searchTermsOf (escapeQuotes (toWesternDigits (trimStr address))) with
          | nil => exact absurd hterm hne
          | cons a as => rfl
        rw [hemp] at hgate
        simp only [Bool.false_eq_true, if_false] at hgate
        obtain ⟨t, ht, htm⟩ := List.any_eq_true.mp hgate
        refine ⟨t, ht, addr, ?_, ?_⟩
        · exact haddr
        · rw [haddr] at htm
          simpa using htm

theorem C7_counterexample :
    (geocode sampleBackend sampleState1 "a_".toList {}).1 =
      .ok [geocodeRowToResult (sampleRow 2 "13847".toList "7".toList) 0,
           geocodeRowToResult (sampleRow 1 "13847".toList "4".toList) 0,
           geocodeRowToResult (sampleRow 3 "11111".toList "4037".toList) 0] ∧
    searchTermsOf (escapeQuotes (toWesternDigits (trimStr "a_".toList))) = ["a_".toList] ∧
    (geocodeRowToResult (sampleRow 2 "13847".toList "7".toList) 0).full_address_en =
      some "Xab street".toList ∧
    ¬ ("a_".toList <:+: "Xab street".toList) ∧
    ¬ (upperStr "a_".toList <:+: upperStr "Xab street".toList) := by
  refine ⟨by decide, by decide, by decide, by decide, by decide⟩

theorem C7_witness :
    sampleState1.ftsAvailable = false ∧
    (geocode sampleBackend sampleState1 "a_".toList {}).1 =
      .ok [geocodeRowToResult (sampleRow 2 "13847".toList "7".toList) 0,
           geocodeRowToResult (sampleRow 1 "13847".toList "4".toList) 0,
           geocodeRowToResult (sampleRow 3 "11111".toList "4037".toList) 0] ∧
    fallbackResultSpec "a_".toList
      [geocodeRowToResult (sampleRow 2 "13847".toList "7".toList) 0,
       geocodeRowToResult (sampleRow 1 "13847".toList "4".toList) 0,
       geocodeRowToResult (sampleRow 3 "11111".toList "4037".toList) 0] := by
  have hfts : sampleState1.ftsAvailable = false := rfl
  have h : (geocode sampleBackend sampleState1 "a_".toList {}).1 =
      .ok [geocodeRowToResult (sampleRow 2 "13847".toList "7".toList) 0,
           geocodeRowToResult (sampleRow 1 "13847".toList "4".toList) 0,
           geocodeRowToResult (sampleRow 3 "11111".toList "4037".toList) 0] := by decide
  exact ⟨hfts, h, C7_fallback_token_gate sampleBackend sampleState1 "a_".toList {} _ hfts h⟩

/-- C1: the digit-normalization contract of `searchByPostcode` is broken by
the backend predicate: the index lookup uses the normalized postcode, but
the SQL exact-match predicate compares the raw input string, so the same
postcode written with Arabic-Indic digits returns `[]` while its Western
spelling returns the indexed records, although both normalize to the same
string. -/
theorem C1_postcode_predicate_uses_raw_input :
    toWesternDigits (trimStr "١٣٨٤٧".toList) = "13847".toList ∧
    (searchByPostcode sampleBackend sampleState "13847".toList {}).1 =
      .ok [searchRowToResult (sampleRow 1 "13847".toList "4".toList),
           searchRowToResult (sampleRow 2 "13847".toList "7".toList)] ∧
    (searchByPostcode sampleBackend sampleState "١٣٨٤٧".toList {}).1 = .ok [] := by
  refine ⟨by decide, by decide, by decide⟩
